import Mathlib

/-!
Verification of `fetch_shopify_product_data.py`: a shallow embedding of the
URL builder, the paginating fetcher, the flattener and the CSV sink, together
with theorems settling the specification's claims about them.

Remote JSON records are modelled as typed structures following the data model
(`product.get(k)` on a possibly-missing scalar key becomes an `Option` field;
a possibly-missing list key becomes a list field defaulting to `[]`, which is
also how Python's truthiness test treats a missing or empty list).
-/

namespace Shopify

/-- A CSV cell value as produced by the flattener: Python `None`, a string,
an integer (product/variant ids) or a boolean (`available`). -/
inductive Cell where
  | null : Cell
  | str (s : String) : Cell
  | int (n : Int) : Cell
  | bool (b : Bool) : Cell
deriving DecidableEq

/-- An entry of a product's `images` list; only its `src` key is read. -/
structure Image where
  src : Option String
deriving DecidableEq

/-- An entry of a product's `variants` list, with the keys the flattener reads. -/
structure Variant where
  id : Option Int
  title : Option String
  sku : Option String
  price : Option String
  compare_at_price : Option String
  available : Option Bool
  created_at : Option String
  updated_at : Option String
deriving DecidableEq

/-- A product record from `/products.json`, with the keys the flattener reads. -/
structure Product where
  id : Option Int
  title : Option String
  handle : Option String
  vendor : Option String
  product_type : Option String
  created_at : Option String
  updated_at : Option String
  published_at : Option String
  tags : List String
  body_html : Option String
  images : List Image
  variants : List Variant
deriving DecidableEq

/-- A minimal concrete product (every scalar key absent, no tags, images or
variants), used to instantiate universally quantified theorems. -/
def sampleProduct : Product :=
  { id := Option.none, title := Option.none, handle := Option.none,
    vendor := Option.none, product_type := Option.none, created_at := Option.none,
    updated_at := Option.none, published_at := Option.none, tags := [],
    body_html := Option.none, images := [], variants := [] }

/-- A flattened output row: the Python dict built by `flatten_data`, as an
association list in dict-literal insertion order. -/
def FlatRow : Type := List (String × Cell)

instance : DecidableEq FlatRow := by
  unfold FlatRow
  infer_instance

/-- Python `dict.get(k)`: value of the first (only) binding of `k`, if any. -/
def lookupCell (r : FlatRow) (k : String) : Option Cell :=
  match r with
  | [] => Option.none
  | (k₀, v) :: rest => if k = k₀ then some v else lookupCell rest k

/-- The exceptions observable at the boundaries the program guards or fails
to guard: `IOError` from the sink's file operations, and `ValueError` raised
by `urlparse`/`urlsplit` (invalid bracketed netloc), which nothing in the
program catches. -/
inductive Exc where
  | ioError
  | valueError
deriving DecidableEq

instance {ε α : Type} [DecidableEq ε] [DecidableEq α] : DecidableEq (Except ε α)
  | Except.error e₁, Except.error e₂ =>
      match decEq e₁ e₂ with
      | isTrue h => isTrue (by rw [h])
      | isFalse h => isFalse (fun hc => h (Except.error.inj hc))
  | Except.error _, Except.ok _ => isFalse (fun hc => Except.noConfusion hc)
  | Except.ok _, Except.error _ => isFalse (fun hc => Except.noConfusion hc)
  | Except.ok a, Except.ok b =>
      match decEq a b with
      | isTrue h => isTrue (by rw [h])
      | isFalse h => isFalse (fun hc => h (Except.ok.inj hc))

/-- `True` for the characters at which `urlparse` stops scanning the netloc. -/
def isNetlocDelim (c : Char) : Bool :=
  c == '/' || c == '?' || c == '#'

/-- `urlsplit` removes every tab, CR and LF from the URL before parsing
(`_UNSAFE_URL_BYTES_TO_REMOVE`; the three successive `str.replace` calls
amount to one filter). -/
def stripUrlBytes (l : List Char) : List Char :=
  l.filter (fun c => c != '\t' && c != '\r' && c != '\n')

/-- `ipaddress._HEX_DIGITS`: `0123456789ABCDEFabcdef`. -/
def isHexDigit (c : Char) : Bool :=
  c.isDigit || ('a' ≤ c && c ≤ 'f') || ('A' ≤ c && c ≤ 'F')

/-- Python `str.split(sep)` (no maxsplit): splits at every separator and keeps
empty pieces, so `"".split(sep) == ['']` and `"a::b".split(':') == ['a','','b']`. -/
def splitOn (sep : Char) : List Char → List (List Char)
  | [] => [[]]
  | c :: rest =>
      let r := splitOn sep rest
      if c == sep then [] :: r
      else
        match r with
        | h :: t => (c :: h) :: t
        | [] => [[c]]

/-- `IPv4Address._parse_octet`: nonempty, ASCII decimal digits only, at most 3
characters, no leading zero unless the octet is exactly `0`, value at most
255. -/
def parse_octet (p : List Char) : Bool :=
  !p.isEmpty && p.all Char.isDigit && p.length ≤ 3
    && (p == ['0'] || p.headD ' ' != '0')
    && p.foldl (fun n c => 10 * n + (c.toNat - 48)) 0 ≤ 255

/-- `IPv4Address` on a string: no `/`, nonempty, exactly 4 octets split on
`.`, each octet valid. -/
def parse_ipv4 (l : List Char) : Bool :=
  !l.contains '/' && !l.isEmpty
    && (let octets := splitOn '.' l
        octets.length == 4 && octets.all parse_octet)

/-- `_BaseV6._parse_hextet`: hex digits only, at most 4 characters; the empty
string fails (`int('', 16)` raises). -/
def parse_hextet (p : List Char) : Bool :=
  p.all isHexDigit && p.length ≤ 4 && !p.isEmpty

/-- `_BaseV6._ip_int_from_string`, validity only: nonempty; at least 3 parts
split on `:`; an IPv4-style last part is parsed as IPv4 and replaced by two
hextets (always nonempty and valid — their digits do not affect validity, so
they are rendered here as `0`); at most 9 parts; at most one empty interior
part (the `::` skip); an empty first or last part is only allowed flush
against the skip; the skip must cover at least one group; without a skip,
exactly 8 parts with nonempty endpoints; all parts outside the skip are valid
hextets. -/
def parse_ipv6_core (l : List Char) : Bool :=
  if l.isEmpty then false
  else
    let parts := splitOn ':' l
    if parts.length < 3 then false
    else
      let lastPart := parts.getLastD []
      if lastPart.contains '.' && !parse_ipv4 lastPart then false
      else
        let parts₂ := if lastPart.contains '.' then parts.dropLast ++ [['0'], ['0']] else parts
        if 9 < parts₂.length then false
        else
          let interior := (parts₂.drop 1).dropLast
          if 2 ≤ interior.countP (fun p => p.isEmpty) then false
          else if interior.countP (fun p => p.isEmpty) == 1 then
            let si := 1 + interior.findIdx (fun p => p.isEmpty)
            let first := parts₂.headD []
            let last := parts₂.getLastD []
            let hi := if first.isEmpty then si - 1 else si
            let lo₀ := parts₂.length - si - 1
            let lo := if last.isEmpty then lo₀ - 1 else lo₀
            if first.isEmpty && hi != 0 then false
            else if last.isEmpty && lo != 0 then false
            else if 7 < hi + lo then false
            else (parts₂.take hi).all parse_hextet
              && (parts₂.drop (parts₂.length - lo)).all parse_hextet
          else
            parts₂.length == 8 && !(parts₂.headD []).isEmpty
              && !(parts₂.getLastD []).isEmpty && parts₂.all parse_hextet

/-- `IPv6Address` on a string: reject `/`; split a `%scope` suffix at the
first `%` (the scope must then be nonempty and `%`-free); parse the address
part. -/
def parse_ipv6 (l : List Char) : Bool :=
  if l.contains '/' then false
  else
    let addr := l.takeWhile (fun c => c != '%')
    match l.dropWhile (fun c => c != '%') with
    | [] => parse_ipv6_core addr
    | _ :: scope =>
        if scope.isEmpty || scope.contains '%' then false
        else parse_ipv6_core addr

/-- `urllib.parse._check_bracketed_host`, as a predicate (`false` = raises):
a host starting with `v` must match `\Av[a-fA-F0-9]+\..+\Z` (since `[` and
`]` delimit the host and `.` never matches a newline — impossible here, as
tabs/CRs/LFs were stripped — this is: one or more hex digits, a dot, then at
least one character); any other host goes through `ipaddress.ip_address`,
which must yield an IPv6 address — an IPv4 address in brackets raises, and so
does anything that parses as neither. -/
def check_bracketed_host (host : List Char) : Bool :=
  match host with
  | 'v' :: rest =>
      let hexs := rest.takeWhile isHexDigit
      let rem := rest.dropWhile isHexDigit
      !hexs.isEmpty &&
        (match rem with
         | '.' :: t => !t.isEmpty && t.all (fun c => c != '\n')
         | _ => false)
  | _ => !parse_ipv4 host && parse_ipv6 host

/-- Python `str.find(c, start)` restricted to a single character: index of the
first occurrence of `c` at position `start` or later, if any. -/
def pyFind (c : Char) (l : List Char) (start : Nat) : Option Nat :=
  match (l.drop start).findIdx? (fun x => x == c) with
  | some k => some (start + k)
  | Option.none => Option.none

/-- Python `str.rfind(c)` restricted to a single character: index of the last
occurrence of `c`, if any. -/
def pyRFind (c : Char) (l : List Char) : Option Nat :=
  match l.reverse.findIdx? (fun x => x == c) with
  | some k => some (l.length - 1 - k)
  | Option.none => Option.none

/-- `urlparse`'s params split on the path component (`_splitparams`), entered
only when the path contains a `;`: with a `/` present, the `;` is searched for
from the last `/` onward; otherwise from the start. -/
def splitparams (l : List Char) : List Char :=
  if l.contains ';' then
    if l.contains '/' then
      match pyFind ';' l ((pyRFind '/' l).getD 0) with
      | some i => l.take i
      | Option.none => l
    else
      l.take ((l.findIdx? (fun x => x == ';')).getD l.length)
  else l

/-- `construct_url(domain)` from the source: parse `f"//{domain}"` with
`urlparse` and rebuild `https://<netloc>/products.json` with `urlunparse`.

Following CPython's `urlsplit` on `"//" ++ domain`: the WHATWG left-strip of
control characters and spaces removes nothing (the string starts with `/`);
every tab, CR and LF is removed; no scheme is parsed (the first character `/`
is not alphabetic), so `construct_url`'s `https` default is always taken; the
netloc is everything after `//` up to the first `/`, `?` or `#`.  A netloc
with `[` but no `]` (or vice versa) raises `ValueError("Invalid IPv6 URL")`;
with both, the text between the first `[` and the following `]` must pass
`_check_bracketed_host` or `ValueError` is raised.  Nothing in the program
catches these, so they surface as `Except.error`.  The remainder is split
into fragment, query and params to yield the path.  (`_checknetloc`
additionally re-checks netlocs that are not pure ASCII under NFKC
normalization and can raise there; the theorems below restrict themselves to
ASCII domains, for which it returns immediately, and the model omits it.)
`parsed.netloc or parsed.path` falls back to the path when the netloc is
empty; if that is also empty the function logs an error and returns `None`.
`urlunparse(("https", netloc, "/products.json", "", "", ""))` is
`"https://" ++ netloc ++ "/products.json"` for a nonempty netloc. -/
def construct_url (domain : String) : Except Exc (Option String) :=
  let cs := stripUrlBytes domain.data
  let netloc := cs.takeWhile (fun c => !(isNetlocDelim c))
  let rest := cs.dropWhile (fun c => !(isNetlocDelim c))
  if ('[' ∈ netloc ∧ ']' ∉ netloc) ∨ (']' ∈ netloc ∧ '[' ∉ netloc) then
    Except.error Exc.valueError
  else if '[' ∈ netloc ∧ ']' ∈ netloc ∧
      check_bracketed_host
        (((netloc.dropWhile (fun c => c != '[')).drop 1).takeWhile (fun c => c != ']'))
        = false then
    Except.error Exc.valueError
  else
    let path := splitparams ((rest.takeWhile (fun c => c != '#')).takeWhile (fun c => c != '?'))
    let netloc₂ := if netloc.isEmpty then path else netloc
    if netloc₂.isEmpty then Except.ok Option.none
    else Except.ok (some ("https://" ++ String.mk netloc₂ ++ "/products.json"))

/-- C1, plain domains: ASCII, no `/`, `?`, `#`, no brackets and no
tab/CR/LF.  (ASCII keeps `_checknetloc`'s NFKC re-check inert, the absence of
tab/CR/LF makes the unsafe-byte strip the identity, and the absence of
brackets avoids `urlsplit`'s `ValueError` paths.) -/
theorem construct_url_plain (d : String)
    (h : ∀ c ∈ d.data, c.toNat < 128 ∧ c ≠ '/' ∧ c ≠ '?' ∧ c ≠ '#' ∧ c ≠ '[' ∧ c ≠ ']'
      ∧ c ≠ '\t' ∧ c ≠ '\r' ∧ c ≠ '\n') :
    construct_url d = if d = "" then Except.ok Option.none
      else Except.ok (some ("https://" ++ d ++ "/products.json")) := by
  obtain ⟨cs⟩ := d
  have hstrip : stripUrlBytes cs = cs := by
    rw [stripUrlBytes, List.filter_eq_self]
    intro c hc
    rcases h c hc with ⟨-, -, -, -, -, -, h7, h8, h9⟩
    simp [h7, h8, h9]
  have hp : ∀ c ∈ cs, (!(isNetlocDelim c)) = true := by
    intro c hc
    rcases h c hc with ⟨-, h2, h3, h4, -⟩
    simp [isNetlocDelim, h2, h3, h4]
  have htake : cs.takeWhile (fun c => !(isNetlocDelim c)) = cs :=
    List.takeWhile_eq_self_iff.mpr hp
  have hdrop : cs.dropWhile (fun c => !(isNetlocDelim c)) = [] :=
    List.dropWhile_eq_nil_iff.mpr hp
  have hlb : '[' ∉ cs := by
    intro hmem
    exact (h _ hmem).2.2.2.2.1 rfl
  have hrb : ']' ∉ cs := by
    intro hmem
    exact (h _ hmem).2.2.2.2.2.1 rfl
  have hnb : ¬(('[' ∈ cs ∧ ']' ∉ cs) ∨ (']' ∈ cs ∧ '[' ∉ cs)) := by
    rintro (⟨h1, -⟩ | ⟨h1, -⟩)
    · exact hlb h1
    · exact hrb h1
  have hnb₂ : ¬('[' ∈ cs ∧ ']' ∈ cs ∧
      check_bracketed_host
        (((cs.dropWhile (fun c => c != '[')).drop 1).takeWhile (fun c => c != ']'))
        = false) := by
    rintro ⟨h1, -⟩
    exact hlb h1
  cases cs with
  | nil => decide
  | cons a l =>
      rw [show String.mk (a :: l) = { data := a :: l } from rfl] at *
      simp only [construct_url, hstrip, htake, hdrop, if_neg hnb, if_neg hnb₂]
      have hne : String.mk (a :: l) ≠ "" := by
        intro hcontra
        exact (List.cons_ne_nil a l) (congrArg String.data hcontra)
      simp [hne, String.isEmpty, String.mk, String.length]

/-- C1 counterexample: a domain carrying a scheme prefix is mis-parsed — the
netloc becomes the scheme word plus `:` and the produced URL is
`https://https:/products.json`, not an URL with host `example.com`. -/
theorem construct_url_scheme_counterexample :
    construct_url "https://example.com" = Except.ok (some "https://https:/products.json") ∧
    construct_url "https://example.com" ≠ Except.ok (some "https://example.com/products.json") := by
  decide

/-- C1 witness: a plain host yields the canonical endpoint URL and the empty
string yields no URL. -/
theorem construct_url_plain_witness :
    construct_url "example.com" = Except.ok (some "https://example.com/products.json") ∧
    construct_url "" = Except.ok Option.none := by
  constructor
  · have h := construct_url_plain "example.com" (by decide)
    rw [h]
    decide
  · have h := construct_url_plain "" (by decide)
    rw [h]
    decide

/-! ## Paginator/Fetcher -/

/-- What one HTTP page request comes to after `response.json()`:
either a well-formed body (`success`, with `some ps` when a `products` key is
present and `none` when it is absent), or any raised exception (`err` covers
`RequestException` — timeouts, connection errors, the non-2xx statuses turned
into errors by `raise_for_status` — `JSONDecodeError` and the catch-all
`Exception` arm: all three `except` arms just log and `break`). -/
inductive Response where
  | success (products : Option (List Product))
  | err
deriving DecidableEq

/-- `limit = 250`, the maximum page size for Shopify's `/products.json`. -/
def limit : Nat := 250

/-- The `while True` loop body of `fetch_products`, with the successive pages
supplied as a list (the loop requests page `1, 2, …` in order, so page `n`
is entry `n-1`): on `err` break with the accumulator; with no `products` key
or an empty list break; otherwise extend the accumulator, break if the page
is short, and continue onto the next page after the politeness sleep. -/
def fetch_loop : List Response → List Product → List Product
  | [], acc => acc
  | r :: rest, acc =>
    match r with
    | Response.err => acc
    | Response.success Option.none => acc
    | Response.success (some ps) =>
      if ps.isEmpty then acc
      else if ps.length < limit then acc ++ ps
      else fetch_loop rest (acc ++ ps)

/-- `fetch_products(url)`: run the pagination loop starting from an empty
accumulator against the given sequence of page outcomes. -/
def fetch_products (pages : List Response) : List Product :=
  fetch_loop pages []

/-- Consuming a block of full pages (each of length `≥ limit`) continues the
loop on the remaining pages with the pages' products appended. -/
theorem fetch_loop_full_pages (full : List (List Product))
    (h : ∀ l ∈ full, limit ≤ l.length) (tail : List Response) (acc : List Product) :
    fetch_loop (full.map (fun l => Response.success (some l)) ++ tail) acc
      = fetch_loop tail (acc ++ full.flatten) := by
  induction full generalizing acc with
  | nil => simp
  | cons l ls ih =>
      have hl : limit ≤ l.length := h l (by simp)
      have hne : l.isEmpty = false := by
        cases l with
        | nil => simp [limit] at hl
        | cons a t => simp
      have hnlt : ¬(l.length < limit) := not_lt.mpr hl
      simp only [List.map_cons, List.cons_append, fetch_loop, hne, Bool.false_eq_true,
        if_false, hnlt, List.append_eq]
      rw [ih (fun x hx => h x (List.mem_cons_of_mem l hx))]
      simp [List.append_assoc]

/-- C3: when every page before the last is exactly full (`limit` products) and
the last page is strictly short, the fetcher stops right after the last page —
whatever would come afterwards (`rest`) is never consulted — and returns the
concatenation of all pages, whose length is the sum of the per-page counts. -/
theorem fetch_products_last_short (full : List (List Product)) (last : List Product)
    (hfull : ∀ l ∈ full, l.length = limit) (hlast : last.length < limit)
    (rest : List Response) :
    fetch_products (full.map (fun l => Response.success (some l)) ++
        Response.success (some last) :: rest) = full.flatten ++ last ∧
    (fetch_products (full.map (fun l => Response.success (some l)) ++
        Response.success (some last) :: rest)).length
      = (full.map List.length).sum + last.length := by
  have key : fetch_products (full.map (fun l => Response.success (some l)) ++
      Response.success (some last) :: rest) = full.flatten ++ last := by
    unfold fetch_products
    rw [fetch_loop_full_pages full (fun l hl => (hfull l hl).ge) _ []]
    by_cases hemp : last.isEmpty
    · rw [List.isEmpty_iff] at hemp
      subst hemp
      simp [fetch_loop]
    · simp only [List.nil_append, fetch_loop, eq_self_iff_true]
      rw [if_neg (by simpa using hemp), if_pos hlast]
  refine ⟨key, ?_⟩
  rw [key]
  simp [List.length_append, List.length_flatten]

/-- C3 witness: one full page of 250 products followed by a one-product page;
the fetcher returns all 251 products and ignores the trailing error page. -/
theorem fetch_products_last_short_witness :
    fetch_products [Response.success (some (List.replicate 250 sampleProduct)),
        Response.success (some [sampleProduct]), Response.err]
      = List.replicate 250 sampleProduct ++ [sampleProduct] := by
  have h := fetch_products_last_short [List.replicate 250 sampleProduct] [sampleProduct]
    (by intro l hl; rw [List.mem_singleton] at hl; subst hl; exact List.length_replicate 250 _)
    (by decide) [Response.err]
  simpa only [List.map_cons, List.map_nil, List.nil_append, List.cons_append,
    List.flatten_cons, List.flatten_nil, List.append_nil] using h.1

/-- C4: when a page raises (transport error, decode error or any other
exception) after a run of full pages, the fetcher stops — the pages after the
error are never consulted — and returns exactly the previously accumulated
products (empty when the first page already fails). -/
theorem fetch_products_error_prior (full : List (List Product))
    (h : ∀ l ∈ full, limit ≤ l.length) (rest : List Response) :
    fetch_products (full.map (fun l => Response.success (some l)) ++
        Response.err :: rest) = full.flatten := by
  unfold fetch_products
  rw [fetch_loop_full_pages full h _ []]
  simp [fetch_loop]

/-- C4 witness: the first page errors out — the result is the empty list and
the later page is never consulted. -/
theorem fetch_products_error_prior_witness :
    fetch_products [Response.err, Response.success (some [sampleProduct])] = [] := by
  have h := fetch_products_error_prior []
    (by intro l hl; cases hl) [Response.success (some [sampleProduct])]
  simpa using h

/-- C5: a successful page without a `products` key, or with an empty list,
cleanly terminates the pagination after a run of full pages, returning what
was accumulated so far. -/
theorem fetch_products_no_products (full : List (List Product))
    (h : ∀ l ∈ full, limit ≤ l.length) (body : Option (List Product))
    (hb : body = Option.none ∨ body = some []) (rest : List Response) :
    fetch_products (full.map (fun l => Response.success (some l)) ++
        Response.success body :: rest) = full.flatten := by
  unfold fetch_products
  rw [fetch_loop_full_pages full h _ []]
  rcases hb with hb | hb <;> subst hb <;> simp [fetch_loop]

/-- C5 witness: a first page whose body has no `products` key yields the empty
result, and the next page is never consulted. -/
theorem fetch_products_no_products_witness :
    fetch_products [Response.success Option.none, Response.err] = [] := by
  have h := fetch_products_no_products [] (by intro l hl; cases hl)
    Option.none (Or.inl rfl) [Response.err]
  simpa using h

/-! ## Flattener -/

/-- `product.get(k)` for a scalar string key: Python `None` becomes `Cell.null`. -/
def optStr : Option String → Cell
  | Option.none => Cell.null
  | some s => Cell.str s

/-- `product.get(k)` for an integer key. -/
def optInt : Option Int → Cell
  | Option.none => Cell.null
  | some n => Cell.int n

/-- `variant.get('available')`, a boolean key. -/
def optBool : Option Bool → Cell
  | Option.none => Cell.null
  | some b => Cell.bool b

/-- `product.get('images', [{}])[0].get('src') if product.get('images') else
None`: the first image's `src` when the images list is non-empty (truthy),
`None` otherwise. -/
def first_image_src (product : Product) : Option String :=
  match product.images with
  | [] => Option.none
  | img :: _ => img.src

/-- `'|'.join([img.get('src', '') for img in product.get('images', []) if
img.get('src')])`: keep the images whose `src` is truthy (present and
non-empty) and join their `src` values with `|`. -/
def all_image_srcs (product : Product) : String :=
  String.intercalate "|"
    ((product.images.filter (fun img => img.src.getD "" != "")).map
      (fun img => img.src.getD ""))

/-- The per-variant row dict of `flatten_data`, in dict-literal order. -/
def variantRow (store_domain : String) (product : Product) (first_image : Option String)
    (all_images : String) (variant : Variant) : FlatRow :=
  [("store_domain", Cell.str store_domain),
   ("product_id", optInt product.id),
   ("title", optStr product.title),
   ("handle", optStr product.handle),
   ("vendor", optStr product.vendor),
   ("product_type", optStr product.product_type),
   ("created_at", optStr product.created_at),
   ("updated_at", optStr product.updated_at),
   ("published_at", optStr product.published_at),
   ("tags", Cell.str (String.intercalate ", " product.tags)),
   ("body_html", optStr product.body_html),
   ("variant_id", optInt variant.id),
   ("variant_title", optStr variant.title),
   ("sku", optStr variant.sku),
   ("price", optStr variant.price),
   ("compare_at_price", optStr variant.compare_at_price),
   ("available", optBool variant.available),
   ("variant_created_at", optStr variant.created_at),
   ("variant_updated_at", optStr variant.updated_at),
   ("image_src", optStr first_image),
   ("all_image_srcs", Cell.str all_images)]

/-- The no-variant row dict of `flatten_data`: same product-level entries, all
eight variant entries `None`. -/
def noVariantRow (store_domain : String) (product : Product) (first_image : Option String)
    (all_images : String) : FlatRow :=
  [("store_domain", Cell.str store_domain),
   ("product_id", optInt product.id),
   ("title", optStr product.title),
   ("handle", optStr product.handle),
   ("vendor", optStr product.vendor),
   ("product_type", optStr product.product_type),
   ("created_at", optStr product.created_at),
   ("updated_at", optStr product.updated_at),
   ("published_at", optStr product.published_at),
   ("tags", Cell.str (String.intercalate ", " product.tags)),
   ("body_html", optStr product.body_html),
   ("variant_id", Cell.null),
   ("variant_title", Cell.null),
   ("sku", Cell.null),
   ("price", Cell.null),
   ("compare_at_price", Cell.null),
   ("available", Cell.null),
   ("variant_created_at", Cell.null),
   ("variant_updated_at", Cell.null),
   ("image_src", optStr first_image),
   ("all_image_srcs", Cell.str all_images)]

/-- `flatten_data(all_products_data, store_domain)`: for each product compute
the image summaries, then emit one no-variant row when `product.get('variants')`
is falsy (missing or empty) and one row per variant otherwise. -/
def flatten_data (all_products_data : List Product) (store_domain : String) : List FlatRow :=
  match all_products_data with
  | [] => []
  | product :: rest =>
      (if product.variants.isEmpty then
        [noVariantRow store_domain product (first_image_src product) (all_image_srcs product)]
      else
        product.variants.map
          (variantRow store_domain product (first_image_src product) (all_image_srcs product)))
      ++ flatten_data rest store_domain

/-- The eleven product-level column names of a row. -/
def productKeys : List String :=
  ["store_domain", "product_id", "title", "handle", "vendor", "product_type",
   "created_at", "updated_at", "published_at", "tags", "body_html"]

/-- The two image column names of a row. -/
def imageKeys : List String :=
  ["image_src", "all_image_srcs"]

/-- The eight variant column names of a row. -/
def variantKeys : List String :=
  ["variant_id", "variant_title", "sku", "price", "compare_at_price",
   "available", "variant_created_at", "variant_updated_at"]

/-- The cells a variant contributes to its row, in `variantKeys` order. -/
def variantCellsOf (v : Variant) : List (Option Cell) :=
  [some (optInt v.id), some (optStr v.title), some (optStr v.sku), some (optStr v.price),
   some (optStr v.compare_at_price), some (optBool v.available),
   some (optStr v.created_at), some (optStr v.updated_at)]

/-- On product-level and image columns, a variant row agrees with the
no-variant row of the same product: those cells do not depend on the variant. -/
theorem lookupCell_variantRow_prod (d : String) (p : Product) (f : Option String)
    (a : String) (v : Variant) (k : String) (hk : k ∈ productKeys ++ imageKeys) :
    lookupCell (variantRow d p f a v) k = lookupCell (noVariantRow d p f a) k := by
  fin_cases hk <;> rfl

/-- The variant columns of a variant row are the variant's own cells. -/
theorem lookupCell_variantRow_var (d : String) (p : Product) (f : Option String)
    (a : String) (v : Variant) :
    variantKeys.map (fun k => lookupCell (variantRow d p f a v) k) = variantCellsOf v := by
  rfl

/-- The variant columns of a no-variant row are all `None`. -/
theorem lookupCell_noVariantRow_var (d : String) (p : Product) (f : Option String)
    (a : String) (k : String) (hk : k ∈ variantKeys) :
    lookupCell (noVariantRow d p f a) k = some Cell.null := by
  fin_cases hk <;> rfl

/-- The rows emitted for a single product. -/
theorem flatten_data_singleton (p : Product) (d : String) :
    flatten_data [p] d =
      if p.variants.isEmpty then
        [noVariantRow d p (first_image_src p) (all_image_srcs p)]
      else p.variants.map (variantRow d p (first_image_src p) (all_image_srcs p)) := by
  simp [flatten_data]

/-- `flatten_data` processes its products independently, in order. -/
theorem flatten_data_cons (p : Product) (rest : List Product) (d : String) :
    flatten_data (p :: rest) d = flatten_data [p] d ++ flatten_data rest d := by
  simp [flatten_data]

/-- A single product always yields `max 1 (number of variants)` rows. -/
theorem flatten_data_singleton_length (p : Product) (d : String) :
    (flatten_data [p] d).length = max 1 p.variants.length := by
  rw [flatten_data_singleton]
  by_cases hv : p.variants.isEmpty
  · rw [if_pos hv, List.isEmpty_iff] at *
    simp [hv]
  · rw [if_neg hv]
    have hne : p.variants ≠ [] := by
      simpa [List.isEmpty_iff] using hv
    have hpos : 0 < p.variants.length := List.length_pos.mpr hne
    rw [List.length_map]
    omega

/-- C2: the flattener's shape law.  The whole output is the in-order
concatenation of each product's own rows; a product yields `max 1 N` rows
(`N` its variant count), so at least one; all rows of one product agree on
every product-level and image column; with no variants the single row has
`None` in every variant column; with `N ≥ 1` variants there are exactly `N`
rows whose variant columns are, in order, exactly the variants' own cells. -/
theorem flatten_data_shape (l : List Product) (d : String) :
    (flatten_data l d).length = (l.map (fun p => max 1 p.variants.length)).sum
    ∧ flatten_data l d = l.flatMap (fun p => flatten_data [p] d)
    ∧ ∀ p : Product,
        1 ≤ (flatten_data [p] d).length
        ∧ (flatten_data [p] d).length = max 1 p.variants.length
        ∧ (∀ r₁ ∈ flatten_data [p] d, ∀ r₂ ∈ flatten_data [p] d,
            ∀ k ∈ productKeys ++ imageKeys, lookupCell r₁ k = lookupCell r₂ k)
        ∧ (p.variants = [] →
            ∀ r ∈ flatten_data [p] d, ∀ k ∈ variantKeys, lookupCell r k = some Cell.null)
        ∧ (p.variants ≠ [] →
            (flatten_data [p] d).length = p.variants.length
            ∧ (flatten_data [p] d).map (fun r => variantKeys.map (fun k => lookupCell r k))
              = p.variants.map variantCellsOf) := by
  refine ⟨?_, ?_, ?_⟩
  · induction l with
    | nil => simp [flatten_data]
    | cons p rest ih =>
        rw [flatten_data_cons, List.length_append, ih, List.map_cons, List.sum_cons,
          flatten_data_singleton_length]
  · induction l with
    | nil => simp [flatten_data]
    | cons p rest ih =>
        rw [flatten_data_cons, ih, List.flatMap_cons]
  · intro p
    refine ⟨?_, flatten_data_singleton_length p d, ?_, ?_, ?_⟩
    · rw [flatten_data_singleton_length]
      omega
    · intro r₁ hr₁ r₂ hr₂ k hk
      rw [flatten_data_singleton] at hr₁ hr₂
      by_cases hv : p.variants.isEmpty
      · rw [if_pos hv, List.mem_singleton] at hr₁ hr₂
        rw [hr₁, hr₂]
      · rw [if_neg hv] at hr₁ hr₂
        obtain ⟨v₁, -, rfl⟩ := List.mem_map.mp hr₁
        obtain ⟨v₂, -, rfl⟩ := List.mem_map.mp hr₂
        rw [lookupCell_variantRow_prod d p _ _ v₁ k hk,
          lookupCell_variantRow_prod d p _ _ v₂ k hk]
    · intro hv r hr k hk
      rw [flatten_data_singleton, if_pos (by simp [hv]), List.mem_singleton] at hr
      rw [hr]
      exact lookupCell_noVariantRow_var d p _ _ k hk
    · intro hv
      have hv' : p.variants.isEmpty = false := by
        simpa [List.isEmpty_iff] using hv
      rw [flatten_data_singleton, if_neg (by simp [hv'])]
      refine ⟨List.length_map _ _, ?_⟩
      rw [List.map_map]
      refine List.map_congr_left ?_
      intro v hv₂
      exact lookupCell_variantRow_var d p _ _ v

/-- C2 witness: a product with no variants yields exactly one row, and that
row's `variant_id` column is `None`. -/
theorem flatten_data_shape_witness :
    (flatten_data [sampleProduct] "example.com").length = max 1 sampleProduct.variants.length
    ∧ lookupCell (noVariantRow "example.com" sampleProduct Option.none "")
        "variant_id" = some Cell.null := by
  have h := (flatten_data_shape [sampleProduct] "example.com").2.2 sampleProduct
  refine ⟨h.2.1, ?_⟩
  exact h.2.2.2.1 rfl (noVariantRow "example.com" sampleProduct Option.none "")
    (by decide) "variant_id" (by decide)

/-- The image and tag cells of a no-variant row. -/
theorem lookupCell_noVariantRow_img (d : String) (p : Product) (f : Option String)
    (a : String) :
    lookupCell (noVariantRow d p f a) "image_src" = some (optStr f)
    ∧ lookupCell (noVariantRow d p f a) "all_image_srcs" = some (Cell.str a)
    ∧ lookupCell (noVariantRow d p f a) "tags"
        = some (Cell.str (String.intercalate ", " p.tags)) :=
  ⟨rfl, rfl, rfl⟩

/-- The image and tag cells of a variant row. -/
theorem lookupCell_variantRow_img (d : String) (p : Product) (f : Option String)
    (a : String) (v : Variant) :
    lookupCell (variantRow d p f a v) "image_src" = some (optStr f)
    ∧ lookupCell (variantRow d p f a v) "all_image_srcs" = some (Cell.str a)
    ∧ lookupCell (variantRow d p f a v) "tags"
        = some (Cell.str (String.intercalate ", " p.tags)) :=
  ⟨rfl, rfl, rfl⟩

/-- `first_image_src` is the `src` of the head of the images list, if any. -/
theorem first_image_src_eq (p : Product) :
    first_image_src p = p.images.head?.bind Image.src := by
  cases hp : p.images <;> simp [first_image_src, hp]

/-- `all_image_srcs` equals the non-empty `src` values joined with `|`. -/
theorem all_image_srcs_eq (p : Product) :
    all_image_srcs p = String.intercalate "|"
      ((p.images.map (fun i => i.src.getD "")).filter (fun s => s != "")) := by
  rw [all_image_srcs, List.filter_map]
  rfl

/-- The two-variant concrete product of the specification's scenario. -/
def exampleVariantA : Variant :=
  { id := some 10, title := Option.none, sku := Option.none, price := some "20.00",
    compare_at_price := Option.none, available := Option.none,
    created_at := Option.none, updated_at := Option.none }

/-- The second variant of the scenario product. -/
def exampleVariantB : Variant :=
  { id := some 11, title := Option.none, sku := Option.none, price := some "25.00",
    compare_at_price := Option.none, available := Option.none,
    created_at := Option.none, updated_at := Option.none }

/-- The scenario product: id 1, title "Shirt", tags `a`,`b`, two images, two
variants. -/
def exampleProduct : Product :=
  { id := some 1, title := some "Shirt", handle := Option.none, vendor := Option.none,
    product_type := Option.none, created_at := Option.none, updated_at := Option.none,
    published_at := Option.none, tags := ["a", "b"], body_html := Option.none,
    images := [{ src := some "i1" }, { src := some "i2" }],
    variants := [exampleVariantA, exampleVariantB] }

/-- C6: on every row of any product, `image_src` is the first image's `src`
(`None` with no images), `all_image_srcs` joins the non-empty `src` values
with `|` in order, and `tags` joins the tag list with `", "`; and the concrete
scenario product yields exactly the two rows the specification describes. -/
theorem flatten_images_tags (p : Product) (d : String) :
    (∀ r ∈ flatten_data [p] d,
        lookupCell r "image_src" = some (optStr (p.images.head?.bind Image.src))
        ∧ lookupCell r "all_image_srcs" = some (Cell.str (String.intercalate "|"
            ((p.images.map (fun i => i.src.getD "")).filter (fun s => s != ""))))
        ∧ lookupCell r "tags" = some (Cell.str (String.intercalate ", " p.tags)))
    ∧ (flatten_data [exampleProduct] "example.com").length = 2
    ∧ (flatten_data [exampleProduct] "example.com").map (fun r => lookupCell r "tags")
        = [some (Cell.str "a, b"), some (Cell.str "a, b")]
    ∧ (flatten_data [exampleProduct] "example.com").map (fun r => lookupCell r "image_src")
        = [some (Cell.str "i1"), some (Cell.str "i1")]
    ∧ (flatten_data [exampleProduct] "example.com").map
          (fun r => lookupCell r "all_image_srcs")
        = [some (Cell.str "i1|i2"), some (Cell.str "i1|i2")]
    ∧ (flatten_data [exampleProduct] "example.com").map (fun r => lookupCell r "variant_id")
        = [some (Cell.int 10), some (Cell.int 11)]
    ∧ (flatten_data [exampleProduct] "example.com").map (fun r => lookupCell r "price")
        = [some (Cell.str "20.00"), some (Cell.str "25.00")] := by
  refine ⟨?_, by decide, by decide, by decide, by decide, by decide, by decide⟩
  intro r hr
  rw [flatten_data_singleton] at hr
  rw [← first_image_src_eq, ← all_image_srcs_eq]
  by_cases hv : p.variants.isEmpty
  · rw [if_pos hv, List.mem_singleton] at hr
    rw [hr]
    exact lookupCell_noVariantRow_img d p _ _
  · rw [if_neg hv] at hr
    obtain ⟨v, -, rfl⟩ := List.mem_map.mp hr
    exact lookupCell_variantRow_img d p _ _ v

/-- C6 witness: the first scenario row carries the tags cell `"a, b"`. -/
theorem flatten_images_tags_witness :
    lookupCell (variantRow "example.com" exampleProduct (some "i1") "i1|i2" exampleVariantA)
        "tags" = some (Cell.str "a, b") := by
  have h := (flatten_images_tags exampleProduct "example.com").1
    (variantRow "example.com" exampleProduct (some "i1") "i1|i2" exampleVariantA)
    (by decide)
  rw [h.2.2]
  decide

/-- C10: for products without images, every emitted row has `image_src` equal
to `None` but `all_image_srcs` equal to the empty string — the two defaults
are asymmetric. -/
theorem flatten_no_images_asymmetry (l : List Product) (d : String)
    (h : ∀ p ∈ l, p.images = []) :
    ∀ r ∈ flatten_data l d,
      lookupCell r "image_src" = some Cell.null
      ∧ lookupCell r "all_image_srcs" = some (Cell.str "") := by
  induction l with
  | nil => simp [flatten_data]
  | cons p rest ih =>
      intro r hr
      rw [flatten_data_cons, List.mem_append] at hr
      rcases hr with hr | hr
      · have hp : p.images = [] := h p (by simp)
        have hf : first_image_src p = Option.none := by
          simp [first_image_src, hp]
        have ha : all_image_srcs p = "" := by
          simp [all_image_srcs, hp, String.intercalate]
        rw [flatten_data_singleton, hf, ha] at hr
        by_cases hv : p.variants.isEmpty
        · rw [if_pos hv, List.mem_singleton] at hr
          rw [hr]
          exact ⟨rfl, rfl⟩
        · rw [if_neg hv] at hr
          obtain ⟨v, -, rfl⟩ := List.mem_map.mp hr
          exact ⟨rfl, rfl⟩
      · exact ih (fun q hq => h q (List.mem_cons_of_mem p hq)) r hr

/-- C10 witness: the row of an image-less, variant-less product. -/
theorem flatten_no_images_asymmetry_witness :
    lookupCell (noVariantRow "x" sampleProduct Option.none "") "image_src" = some Cell.null
    ∧ lookupCell (noVariantRow "x" sampleProduct Option.none "") "all_image_srcs"
        = some (Cell.str "") := by
  exact flatten_no_images_asymmetry [sampleProduct] "x"
    (by intro p hp; rw [List.mem_singleton] at hp; rw [hp]; rfl)
    (noVariantRow "x" sampleProduct Option.none "") (by decide)

/-! ## Sink -/

/-- `CSV_HEADERS` from the source, in order.  (It has 21 entries.) -/
def CSV_HEADERS : List String :=
  ["store_domain", "product_id", "title", "handle", "vendor", "product_type",
   "created_at", "updated_at", "published_at", "tags", "body_html",
   "variant_id", "variant_title", "sku", "price", "compare_at_price",
   "available", "variant_created_at", "variant_updated_at",
   "image_src", "all_image_srcs"]

/-- How `csv.writer` renders one cell: `None` becomes the empty field, other
values are rendered with `str` (so `True`/`False` for booleans). -/
def cellToField : Cell → String
  | Cell.null => ""
  | Cell.str s => s
  | Cell.int n => toString n
  | Cell.bool b => if b then "True" else "False"

/-- `DictWriter._dict_to_list` plus the writer: one field per header name in
header order, each the row dict's value for that name, missing names
defaulting to `restval` (the empty string). -/
def dictToRow (fieldnames : List String) (r : FlatRow) : List String :=
  fieldnames.map (fun k => cellToField ((lookupCell r k).getD (Cell.str "")))

/-- The output file as the sink observes it: `os.path.isfile` distinguishes an
absent file from an existing one; an existing file is its written lines. -/
inductive FileState where
  | absent
  | present (lines : List (List String))
deriving DecidableEq

/-- The lines of the file; `open(..., 'a')` creates an absent file empty. -/
def fileLines : FileState → List (List String)
  | FileState.absent => []
  | FileState.present ls => ls

/-- The body of `save_to_csv`'s `try` when open and write succeed: append to
the file; first the header when the file did not exist or had zero length
(`not file_exists or os.path.getsize(filename) == 0`), then one line per row. -/
def save_to_csv_body (data : List FlatRow) (fs : FileState)
    (headers : List String) : FileState :=
  FileState.present
    (fileLines fs
      ++ (if fs = FileState.absent ∨ fileLines fs = [] then [headers] else [])
      ++ data.map (dictToRow headers))

/-- The `try` block of `save_to_csv`: `ioFail` says whether the underlying
open or write raises `IOError`. -/
def save_to_csv_try (ioFail : Bool) (data : List FlatRow) (fs : FileState)
    (headers : List String) : Except Exc FileState :=
  if ioFail then Except.error Exc.ioError
  else Except.ok (save_to_csv_body data fs headers)

/-- `save_to_csv(data, filename, headers)`: the `try` with its `except` arms,
which log and return normally — no exception escapes the function.  (A real
mid-write failure can leave a prefix of the batch in the file; the claims
under verification do not depend on a failed call's file content, so a failed
call is modelled as leaving the file as it was.) -/
def save_to_csv (ioFail : Bool) (data : List FlatRow) (fs : FileState)
    (headers : List String) : Except Exc FileState :=
  Except.tryCatch (save_to_csv_try ioFail data fs headers) (fun _ => Except.ok fs)

/-- A sequence of `save_to_csv` calls with working I/O against one file. -/
def applyBatches (batches : List (List FlatRow)) (fs : FileState) : FileState :=
  batches.foldl (fun s b =>
    match save_to_csv false b s CSV_HEADERS with
    | Except.ok s₂ => s₂
    | Except.error _ => s) fs

/-- C7 counterexample: the fixed header does not have 20 column names. -/
theorem csv_headers_not_twenty : CSV_HEADERS.length ≠ 20 := by
  decide

/-- C7 amended: the header is a fixed ordered list of exactly 21 distinct
column names; a successful call appends the header exactly when the file is
absent or empty and then one line per row; every data line has one field per
header column, and its `i`-th field is the row's value for the `i`-th header
name — the header's own order. -/
theorem csv_header_and_order :
    CSV_HEADERS.length = 21
    ∧ CSV_HEADERS.Nodup
    ∧ (∀ data fs, save_to_csv false data fs CSV_HEADERS
        = Except.ok (FileState.present (fileLines fs
            ++ (if fs = FileState.absent ∨ fileLines fs = [] then [CSV_HEADERS] else [])
            ++ data.map (dictToRow CSV_HEADERS))))
    ∧ (∀ r : FlatRow, (dictToRow CSV_HEADERS r).length = CSV_HEADERS.length)
    ∧ (∀ r : FlatRow, ∀ i : Nat,
        (dictToRow CSV_HEADERS r)[i]?
          = (CSV_HEADERS[i]?).map (fun k => cellToField ((lookupCell r k).getD (Cell.str "")))) := by
  refine ⟨by decide, by decide, fun data fs => rfl, fun r => List.length_map _ _, ?_⟩
  intro r i
  rw [dictToRow, List.getElem?_map]

/-- A successful call on an absent or empty file writes the header and then
the batch's lines. -/
theorem save_to_csv_empty (data : List FlatRow) (fs : FileState)
    (h : fs = FileState.absent ∨ fileLines fs = []) :
    save_to_csv false data fs CSV_HEADERS
      = Except.ok (FileState.present (CSV_HEADERS :: data.map (dictToRow CSV_HEADERS))) := by
  rcases fs with - | ls
  · rfl
  · rcases h with h | h
    · cases h
    · rw [fileLines] at h
      subst h
      rfl

/-- A successful call on a non-empty file appends only the batch's lines. -/
theorem save_to_csv_nonempty (data : List FlatRow) (x : List String)
    (xs : List (List String)) :
    save_to_csv false data (FileState.present (x :: xs)) CSV_HEADERS
      = Except.ok (FileState.present ((x :: xs) ++ data.map (dictToRow CSV_HEADERS))) := by
  have hcond : ¬(FileState.present (x :: xs) = FileState.absent ∨ x :: xs = []) := by
    rintro (h | h) <;> simp at h
  simp only [save_to_csv, save_to_csv_try, save_to_csv_body, Except.tryCatch,
    Bool.false_eq_true, if_false, fileLines, if_neg hcond, List.append_nil]

/-- Unfolding one step of a call sequence. -/
theorem applyBatches_cons (b : List FlatRow) (rest : List (List FlatRow)) (fs : FileState) :
    applyBatches (b :: rest) fs = applyBatches rest
      (match save_to_csv false b fs CSV_HEADERS with
       | Except.ok s₂ => s₂
       | Except.error _ => fs) :=
  rfl

/-- Running further successful calls against a non-empty file appends exactly
the batches' data lines. -/
theorem applyBatches_nonempty (batches : List (List FlatRow)) (x : List String)
    (xs : List (List String)) :
    fileLines (applyBatches batches (FileState.present (x :: xs)))
      = (x :: xs) ++ (batches.flatten).map (dictToRow CSV_HEADERS) := by
  induction batches generalizing xs with
  | nil => simp [applyBatches, fileLines]
  | cons b rest ih =>
      rw [applyBatches_cons, save_to_csv_nonempty]
      show fileLines (applyBatches rest
          (FileState.present ((x :: xs) ++ b.map (dictToRow CSV_HEADERS)))) = _
      rw [List.cons_append, ih (xs ++ b.map (dictToRow CSV_HEADERS))]
      simp [List.flatten_cons, List.map_append, List.append_assoc]

/-- C8: the header is written exactly when the file is absent or zero-length —
a call on such a file writes the header first and a call on a non-empty file
appends no header — so any non-empty sequence of calls starting from an
absent or empty file leaves exactly the batches' data lines under a single
header line at the top; when no data line coincides with the header (true of
the flattener's rows), the header occurs exactly once in the file. -/
theorem save_header_once :
    (∀ data fs, (fs = FileState.absent ∨ fileLines fs = []) →
        save_to_csv false data fs CSV_HEADERS
          = Except.ok (FileState.present (CSV_HEADERS :: data.map (dictToRow CSV_HEADERS))))
    ∧ (∀ data x xs,
        save_to_csv false data (FileState.present (x :: xs)) CSV_HEADERS
          = Except.ok (FileState.present ((x :: xs) ++ data.map (dictToRow CSV_HEADERS))))
    ∧ (∀ batches fs₀, (fs₀ = FileState.absent ∨ fileLines fs₀ = []) → batches ≠ [] →
        fileLines (applyBatches batches fs₀)
          = CSV_HEADERS :: (batches.flatten).map (dictToRow CSV_HEADERS))
    ∧ (∀ batches fs₀, (fs₀ = FileState.absent ∨ fileLines fs₀ = []) → batches ≠ [] →
        (∀ r ∈ batches.flatten, dictToRow CSV_HEADERS r ≠ CSV_HEADERS) →
        (fileLines (applyBatches batches fs₀)).count CSV_HEADERS = 1) := by
  have seqLines : ∀ batches fs₀, (fs₀ = FileState.absent ∨ fileLines fs₀ = []) →
      batches ≠ [] →
      fileLines (applyBatches batches fs₀)
        = CSV_HEADERS :: (batches.flatten).map (dictToRow CSV_HEADERS) := by
    intro batches fs₀ h hne
    cases batches with
    | nil => exact absurd rfl hne
    | cons b rest =>
        rw [applyBatches_cons, save_to_csv_empty b fs₀ h]
        show fileLines (applyBatches rest
            (FileState.present (CSV_HEADERS :: b.map (dictToRow CSV_HEADERS)))) = _
        rw [applyBatches_nonempty rest CSV_HEADERS (b.map (dictToRow CSV_HEADERS))]
        simp [List.flatten_cons, List.map_append]
  refine ⟨save_to_csv_empty, fun data x xs => save_to_csv_nonempty data x xs, seqLines, ?_⟩
  intro batches fs₀ h hne hrows
  rw [seqLines batches fs₀ h hne, List.count_cons_self]
  have hz : (batches.flatten.map (dictToRow CSV_HEADERS)).count CSV_HEADERS = 0 := by
    rw [List.count_eq_zero]
    intro hmem
    obtain ⟨r, hr, hr₂⟩ := List.mem_map.mp hmem
    exact hrows r hr hr₂
  rw [hz]

/-- C8 witness: two one-row batches appended to an initially absent file give
one header line at the top followed by the two data lines, and the header
occurs exactly once. -/
theorem save_header_once_witness :
    fileLines (applyBatches
        [[noVariantRow "w" sampleProduct Option.none ""],
         [noVariantRow "w" sampleProduct Option.none ""]] FileState.absent)
      = CSV_HEADERS ::
        [dictToRow CSV_HEADERS (noVariantRow "w" sampleProduct Option.none ""),
         dictToRow CSV_HEADERS (noVariantRow "w" sampleProduct Option.none "")]
    ∧ (fileLines (applyBatches
        [[noVariantRow "w" sampleProduct Option.none ""],
         [noVariantRow "w" sampleProduct Option.none ""]] FileState.absent)).count
        CSV_HEADERS = 1 := by
  constructor
  · have h := save_header_once.2.2.1
      [[noVariantRow "w" sampleProduct Option.none ""],
       [noVariantRow "w" sampleProduct Option.none ""]] FileState.absent
      (Or.inl rfl) (by simp)
    simpa using h
  · have h := save_header_once.2.2.2
      [[noVariantRow "w" sampleProduct Option.none ""],
       [noVariantRow "w" sampleProduct Option.none ""]] FileState.absent
      (Or.inl rfl) (by simp) (by decide)
    exact h

/-! ## Orchestration (`__main__`) -/

